import Mathlib

/-!
Verification of the noctilucence animation engine specification against a
shallow embedding of its Python source (animator/scene.py, animator/funcs.py,
animator/entities/entity.py, animator/entities/contour2d.py and
projects/001_2d_flatness_calc/flatness_visualizer_2d.py).

Modelling conventions used throughout this file:
* Python floats are modelled as exact rationals (`ℚ`) where only field
  operations occur, and as real numbers (`ℝ`) where transcendental profile
  curves appear; square roots and library RNG draws are passed in as explicit
  function parameters so every definition stays computable.
* Python exceptions are modelled with `Except`; a raised exception aborts the
  rest of the computation exactly as in the source.
* 3-vectors whose z component is always zero in the exercised code paths are
  modelled as 2-dimensional pairs where noted.
-/

namespace Noct

/-- Errors raised by the modelled Python code.  `outOfFuel` is not a Python
error: it marks exhaustion of the explicit fuel used to model the source's
unbounded `while` loop. -/
inductive PyErr where
  | keyError (key : String ⊕ ℕ)
  | valueError (msg : String)
  | unboundLocal (name : String)
  | outOfFuel
  deriving DecidableEq, Repr

/-- 3-component vector over ℚ (models a shape-(3) numpy float array). -/
abbrev Vec3 := ℚ × ℚ × ℚ

/-- 2-component vector over ℚ (models a 2d point / direction; the source's
third component is identically zero on the exercised code paths). -/
abbrev V2 := ℚ × ℚ

def vadd (u v : Vec3) : Vec3 := (u.1 + v.1, u.2.1 + v.2.1, u.2.2 + v.2.2)

/-- 3×3 matrix stored as its three columns, matching the source's convention
that the orientation matrix holds the i, j, k axis unit vectors as columns. -/
abbrev Mat3 := Vec3 × Vec3 × Vec3

/-- Matrix-vector product `A @ x = x₁·col₁ + x₂·col₂ + x₃·col₃`. -/
def matVec (m : Mat3) (v : Vec3) : Vec3 :=
  let c1 := m.1; let c2 := m.2.1; let c3 := m.2.2
  ( v.1 * c1.1 + v.2.1 * c2.1 + v.2.2 * c3.1
  , v.1 * c1.2.1 + v.2.1 * c2.2.1 + v.2.2 * c3.2.1
  , v.1 * c1.2.2 + v.2.1 * c2.2.2 + v.2.2 * c3.2.2 )

/-- Matrix product `A @ B`, column-wise: the columns of `A @ B` are `A`
applied to the columns of `B`. -/
def matMul (a b : Mat3) : Mat3 := (matVec a b.1, matVec a b.2.1, matVec a b.2.2)

/-- The identity matrix (`np.identity(3)`). -/
def mid : Mat3 := ((1, 0, 0), (0, 1, 0), (0, 0, 1))

/-! ## Scene Node transform accessors (entities/entity.py)

`Entity.gpos` and `Entity.gori` walk the parent chain.  We represent an
entity by the fields those accessors read: its local `pos`, its local `ori`,
and the chain of `(pos, ori)` pairs of its ancestors, nearest parent first
(an empty chain models `attributes["parent"] == None`). -/

structure PEntity where
  pos : Vec3
  ori : Mat3
  ancestors : List (Vec3 × Mat3)
  deriving DecidableEq, Repr

/-- Recursion of `Entity.gpos`: carry `local_pos` up the parent chain; at a
parentless entity return the accumulated `local_pos` unchanged. -/
def gposAux : Vec3 → List (Vec3 × Mat3) → Vec3
  | lp, [] => lp
  | lp, p :: rest => gposAux (vadd p.1 (matVec p.2 lp)) rest

/-- `Entity.gpos()` with the default `local_pos=None` (start from `pos()`). -/
def gpos (e : PEntity) : Vec3 := gposAux e.pos e.ancestors

/-- Recursion of `Entity.gori`: a parentless entity reports the identity (its
own stored `ori` is not consulted); otherwise `self.ori() @ parent.gori()`. -/
def goriAux : Mat3 → List (Vec3 × Mat3) → Mat3
  | _, [] => mid
  | o, p :: rest => matMul o (goriAux p.2 rest)

/-- `Entity.gori()`. -/
def gori (e : PEntity) : Mat3 := goriAux e.ori e.ancestors

/-! ## Directed ray/polygon distance (funcs.dist_to_poly)

The source works on shape-(3) vectors whose z component is identically zero;
we drop that component.  `np.linalg.norm` involves a square root, so the norm
routine is passed in as an explicit function parameter `nf`. -/

/-- 2d dot product (`np.dot` on the xy components). -/
def dot2 (u v : V2) : ℚ := u.1 * v.1 + u.2 * v.2

/-- 2d vector difference. -/
def vsub2 (u v : V2) : V2 := (u.1 - v.1, u.2 - v.2)

/-- A Python float result that may be `np.inf` or `-np.inf`. -/
inductive QInf where
  | fin (q : ℚ)
  | pinf
  | ninf
  deriving DecidableEq, Repr

/-- The edges of a closed polygon given by its ordered vertex list:
`(vertices[i], vertices[(i+1) % len(vertices)])`. -/
def polyEdges (vs : List V2) : List (V2 × V2) :=
  (List.range vs.length).map
    (fun i => (vs.getD i (0, 0), vs.getD ((i + 1) % vs.length) (0, 0)))

/-- One iteration of the edge loop of `dist_to_poly`.  The state is
`(min_line_fwd_dist, inside)` where `none` stands for the initial `np.inf`
and `inside = true` for `inside_factor = -1`. -/
def distStep (a n pt : V2) (st : Option ℚ × Bool) (e : V2 × V2) :
    Option ℚ × Bool :=
  let normStart := dot2 n (vsub2 e.1 pt)
  let normEnd := dot2 n (vsub2 e.2 pt)
  let axStart := dot2 a (vsub2 e.1 pt)
  let axEnd := dot2 a (vsub2 e.2 pt)
  if normStart * normEnd > 0 then st -- same sign; no intersection
  else if normEnd - normStart = 0 then st
    -- here both endpoints lie on the ray line, so the source computes the
    -- float division 0/0 = NaN; every NaN comparison below is False and the
    -- iteration leaves the state unchanged
  else
    let fwd := axStart +
      ((0 - normStart) / (normEnd - normStart)) * (axEnd - axStart)
    if fwd < 0 then (st.1, true) -- must be inside polygon
    else
      match st.1 with
      | none => (some fwd, st.2)
      | some m => if fwd < m then (some fwd, st.2) else (some m, st.2)

/-- `funcs.dist_to_poly(poly, point, dir)`.  `nf` supplies
`np.linalg.norm`; `vs` is the polygon's global vertex list
(`poly.get_points()[0]` with the zero z dropped) and `pt` the reference
point's `gpos()`. -/
def dist_to_poly (nf : V2 → ℚ) (vs : List V2) (pt : V2) (dir : V2) : QInf :=
  let a : V2 := (dir.1 / nf dir, dir.2 / nf dir)
  let n : V2 := (-a.2, a.1)
  let st := (polyEdges vs).foldl (distStep a n pt) (none, false)
  match st.1 with
  | some d => .fin (if st.2 then -d else d)
  | none => if st.2 then .ninf else .pinf

/-- Spec-side definition, following the specification's words: an edge
crosses the ray line iff its endpoints have opposite signs relative to it
(at least one endpoint on each closed side, excluding edges lying entirely
on the line); for each crossing edge the forward distance is obtained by
linear interpolation at the zero crossing. -/
def specCrossDists (a : V2) (vs : List V2) (pt : V2) : List ℚ :=
  (polyEdges vs).filterMap (fun e =>
    let ns := dot2 (-a.2, a.1) (vsub2 e.1 pt)
    let ne := dot2 (-a.2, a.1) (vsub2 e.2 pt)
    if ns * ne ≤ 0 ∧ ¬(ns = 0 ∧ ne = 0) then
      some (dot2 a (vsub2 e.1 pt) +
        ((0 - ns) / (ne - ns)) * (dot2 a (vsub2 e.2 pt) - dot2 a (vsub2 e.1 pt)))
    else none)

/-- Minimum of a list of rationals (`none` for the empty list). -/
def listMinQ : List ℚ → Option ℚ
  | [] => none
  | q :: rest =>
    match listMinQ rest with
    | none => some q
    | some m => some (min q m)

/-- Spec-side contract for the directed ray/polygon distance: the minimum
non-negative forward distance among crossing edges, with the magnitude
negated when any crossing has negative forward distance; `+∞` when there is
no crossing at all, `-∞` when crossings exist but none is forward. -/
def dist_to_poly_spec (a : V2) (vs : List V2) (pt : V2) : QInf :=
  let ds := specCrossDists a vs pt
  let nonneg := ds.filter (fun d => 0 ≤ d)
  let inside := ds.any (fun d => d < 0)
  match listMinQ nonneg with
  | some m => .fin (if inside then -m else m)
  | none => if inside then .ninf else .pinf

/-- Merge of two optional minima. -/
def minCombine : Option ℚ → Option ℚ → Option ℚ
  | none, o => o
  | some m, none => some m
  | some m, some m' => some (min m m')

theorem minCombine_assoc (a b c : Option ℚ) :
    minCombine (minCombine a b) c = minCombine a (minCombine b c) := by
  cases a <;> cases b <;> cases c <;> simp [minCombine, min_assoc]

theorem minCombine_none_right (a : Option ℚ) : minCombine a none = a := by
  cases a <;> rfl

/-- Loop step expressed on the spec-side crossing value of the edge. -/
def stepQ (st : Option ℚ × Bool) (f : ℚ) : Option ℚ × Bool :=
  if f < 0 then (st.1, true) else (minCombine st.1 (some f), st.2)

/-- The crossing value consumed by one loop iteration (as in
`specCrossDists`, for a single edge). -/
def crossFn (a pt : V2) (e : V2 × V2) : Option ℚ :=
  let ns := dot2 (-a.2, a.1) (vsub2 e.1 pt)
  let ne := dot2 (-a.2, a.1) (vsub2 e.2 pt)
  if ns * ne ≤ 0 ∧ ¬(ns = 0 ∧ ne = 0) then
    some (dot2 a (vsub2 e.1 pt) +
      ((0 - ns) / (ne - ns)) * (dot2 a (vsub2 e.2 pt) - dot2 a (vsub2 e.1 pt)))
  else none

theorem specCrossDists_eq_filterMap (a : V2) (vs : List V2) (pt : V2) :
    specCrossDists a vs pt = (polyEdges vs).filterMap (crossFn a pt) := rfl

theorem listMinQ_cons (q : ℚ) (l : List ℚ) :
    listMinQ (q :: l) = minCombine (some q) (listMinQ l) := by
  cases h : listMinQ l <;> simp [listMinQ, h, minCombine]

/-- Each source loop iteration acts exactly like `stepQ` on the spec-side
crossing value of the edge. -/
theorem distStep_eq_stepQ (a pt : V2) (st : Option ℚ × Bool) (e : V2 × V2) :
    distStep a (-a.2, a.1) pt st e =
      (match crossFn a pt e with
       | none => st
       | some f => stepQ st f) := by
  obtain ⟨o, b⟩ := st
  unfold distStep crossFn stepQ
  simp only [zero_sub]
  set ns := dot2 (-a.2, a.1) (vsub2 e.1 pt) with hns
  set ne := dot2 (-a.2, a.1) (vsub2 e.2 pt) with hne
  set F := dot2 a (vsub2 e.1 pt) +
    -ns / (ne - ns) * (dot2 a (vsub2 e.2 pt) - dot2 a (vsub2 e.1 pt)) with hF
  by_cases hpos : ns * ne > 0
  · have hcross : ¬(ns * ne ≤ 0 ∧ ¬(ns = 0 ∧ ne = 0)) := by
      intro h; exact absurd h.1 (not_le.mpr hpos)
    simp only [hpos, if_true, hcross, if_false]
  · have hle : ns * ne ≤ 0 := not_lt.mp hpos
    by_cases hz : ne - ns = 0
    · have hnsz : ns = 0 ∧ ne = 0 := by
        have hee : ne = ns := by linarith [sub_eq_zero.mp hz]
        have hss : ns * ns ≤ 0 := by rw [hee] at hle; linarith [hle]
        have h0 : ns = 0 := by nlinarith [mul_self_nonneg ns]
        exact ⟨h0, by rw [hee, h0]⟩
      have hcross : ¬(ns * ne ≤ 0 ∧ ¬(ns = 0 ∧ ne = 0)) := by
        intro h; exact h.2 hnsz
      simp only [hpos, if_false, hz, if_true, hcross]
    · have hcross : ns * ne ≤ 0 ∧ ¬(ns = 0 ∧ ne = 0) := by
        refine ⟨hle, fun h => hz ?_⟩
        rw [h.1, h.2]; ring
      simp only [hpos, if_false, hz, hcross, not_false_eq_true, and_self,
        if_true]
      by_cases hneg : F < 0
      · simp [hneg]
      · cases o with
        | none => simp [hneg, minCombine]
        | some m =>
          simp only [minCombine, hneg, if_false]
          by_cases hlt : F < m
          · rw [if_pos hlt, min_eq_right (le_of_lt hlt)]
          · rw [if_neg hlt, min_eq_left (not_lt.mp hlt)]

/-- Folding `stepQ` over a list of crossing values computes the combined
minimum of the non-negative values and whether any value is negative. -/
theorem foldl_stepQ (l : List ℚ) (o : Option ℚ) (b : Bool) :
    l.foldl stepQ (o, b) =
      (minCombine o (listMinQ (l.filter (fun d => 0 ≤ d))),
       b || l.any (fun d => d < 0)) := by
  induction l generalizing o b with
  | nil => simp [listMinQ, minCombine_none_right]
  | cons f rest ih =>
    by_cases hneg : f < 0
    · have hnn : ¬(0 ≤ f) := not_le.mpr hneg
      simp only [List.foldl_cons, stepQ, hneg, if_true, ih, List.filter_cons,
        List.any_cons, decide_eq_true_eq]
      simp [hnn, hneg]
    · have hnn : 0 ≤ f := not_lt.mp hneg
      simp only [List.foldl_cons, stepQ, hneg, if_false, ih, List.filter_cons,
        List.any_cons, decide_eq_true_eq]
      simp [hnn, hneg, listMinQ_cons, minCombine_assoc]

/-- Folding the source step over the edges equals folding `stepQ` over the
spec-side crossing values. -/
theorem foldl_distStep_eq (a pt : V2) (edges : List (V2 × V2))
    (st : Option ℚ × Bool) :
    edges.foldl (distStep a (-a.2, a.1) pt) st =
      (edges.filterMap (crossFn a pt)).foldl stepQ st := by
  induction edges generalizing st with
  | nil => rfl
  | cons e rest ih =>
    rw [List.foldl_cons, distStep_eq_stepQ, List.filterMap_cons]
    cases h : crossFn a pt e with
    | none => simp only [ih]
    | some f => simp only [List.foldl_cons, ih]

/-- The edge loop of `dist_to_poly` computes the minimum of the non-negative
spec-side crossing distances together with the flag recording whether some
crossing distance is negative. -/
theorem foldl_distStep_main (a pt : V2) (vs : List V2) :
    (polyEdges vs).foldl (distStep a (-a.2, a.1) pt) (none, false) =
      (listMinQ ((specCrossDists a vs pt).filter (fun d => 0 ≤ d)),
       (specCrossDists a vs pt).any (fun d => d < 0)) := by
  rw [foldl_distStep_eq, ← specCrossDists_eq_filterMap, foldl_stepQ]
  simp [minCombine]

/-! ## Endpoint-exact interpolation (funcs.span)

Python float arithmetic is modelled as exact real arithmetic; the
transcendental profile curves force these definitions to be noncomputable. -/

/-- Profile names accepted by `funcs.span`; any unrecognised string falls
through to `sigmoid` in the source, so the five constructors are exhaustive. -/
inductive Profile where
  | linear
  | quadratic
  | neg_quadratic
  | sinusoid
  | sigmoid
  deriving DecidableEq, Repr

/-- `np.linspace(a, b, n)[i] = a + (b - a) * i / (n - 1)`. -/
noncomputable def linspaceFun (a b : ℝ) (n : ℕ) (i : ℕ) : ℝ :=
  a + (b - a) * i / (n - 1 : ℕ)

/-- The raw, un-rescaled shape value at sample `i` for each profile, exactly
as the source generates it when `n_elems > 1`. -/
noncomputable def profileShape (profile : Profile) (n : ℕ) (i : ℕ) : ℝ :=
  match profile with
  | .linear => linspaceFun 0 1 n i
  | .quadratic => (linspaceFun 0 1 n i) ^ 2
  | .neg_quadratic => 1 - (linspaceFun 1 0 n i) ^ 2
  | .sinusoid => 0.5 - Real.cos (linspaceFun 0 Real.pi n i) / 2
  | .sigmoid => 1 / (1 + Real.exp (-10 * linspaceFun (-0.5) 0.5 n i))

/-- `funcs.span(start, end, n_elems, profile)` for scalar endpoints (vector
endpoints act componentwise through `np.outer`). -/
noncomputable def span (start stop : ℝ) (n_elems : ℕ) (profile : Profile) :
    List ℝ :=
  if n_elems ≤ 1 then
    [start + 1 * (stop - start)] -- shape = np.array([1.])
  else
    let sh := (List.range n_elems).map (profileShape profile n_elems)
    let sh1 := sh.map (fun x => x - sh.headD 0) -- shape -= shape[0]
    let sh2 := sh1.map (fun x => x * (1 / sh1.getLastD 0)) -- *= 1/shape[-1]
    sh2.map (fun t => start + t * (stop - start))

theorem headD_range_map (f : ℕ → ℝ) (n : ℕ) (h : 0 < n) :
    ((List.range n).map f).headD 0 = f 0 := by
  obtain ⟨m, rfl⟩ := Nat.exists_eq_succ_of_ne_zero (Nat.pos_iff_ne_zero.mp h)
  rw [List.range_succ_eq_map]
  simp

theorem getLastD_range_map (f : ℕ → ℝ) (n : ℕ) (h : 0 < n) :
    ((List.range n).map f).getLastD 0 = f (n - 1) := by
  obtain ⟨m, rfl⟩ := Nat.exists_eq_succ_of_ne_zero (Nat.pos_iff_ne_zero.mp h)
  rw [List.range_succ, List.map_append]
  simp

/-- Closed form of `span` for `n > 1`: each sample is the affinely rescaled
raw shape value. -/
theorem span_closed (st en : ℝ) (p : Profile) (n : ℕ) (h : 1 < n) :
    span st en n p = (List.range n).map (fun i =>
      st + ((profileShape p n i - profileShape p n 0) *
        (1 / (profileShape p n (n - 1) - profileShape p n 0))) * (en - st)) := by
  unfold span
  rw [if_neg (by omega)]
  simp only [List.map_map, headD_range_map _ n (by omega),
    Function.comp]
  rw [getLastD_range_map _ n (by omega)]
  simp [Function.comp]

theorem linspaceFun_zero (a b : ℝ) (n : ℕ) : linspaceFun a b n 0 = a := by
  simp [linspaceFun]

theorem linspaceFun_last (a b : ℝ) (n : ℕ) (h : 1 < n) :
    linspaceFun a b n (n - 1) = b := by
  unfold linspaceFun
  have hne : ((n - 1 : ℕ) : ℝ) ≠ 0 := Nat.cast_ne_zero.mpr (by omega)
  rw [mul_div_assoc, div_self hne, mul_one]
  ring

theorem profileShape_zero (p : Profile) (n : ℕ) (_h : 1 < n) :
    profileShape p n 0 =
      (if p = .sigmoid then 1 / (1 + Real.exp 5) else 0) := by
  cases p <;>
    simp [profileShape, linspaceFun_zero, Real.cos_zero] <;> norm_num

theorem profileShape_last (p : Profile) (n : ℕ) (h : 1 < n) :
    profileShape p n (n - 1) =
      (if p = .sigmoid then 1 / (1 + Real.exp (-5)) else 1) := by
  cases p <;>
    simp [profileShape, linspaceFun_last _ _ _ h, Real.cos_pi] <;> norm_num

/-- The raw shape always moves between sample 0 and sample `n-1`, so the
source's rescaling divisor is nonzero. -/
theorem profileShape_diff_ne (p : Profile) (n : ℕ) (h : 1 < n) :
    profileShape p n (n - 1) - profileShape p n 0 ≠ 0 := by
  rw [profileShape_last p n h, profileShape_zero p n h]
  by_cases hp : p = .sigmoid
  · simp only [hp, if_pos]
    have h1 : (0 : ℝ) < 1 + Real.exp 5 := by positivity
    have h2 : (0 : ℝ) < 1 + Real.exp (-5) := by positivity
    have h3 : Real.exp (-5) < Real.exp 5 := Real.exp_lt_exp.mpr (by norm_num)
    have h4 : 1 / (1 + Real.exp 5) < 1 / (1 + Real.exp (-5)) :=
      one_div_lt_one_div_of_lt h2 (by linarith)
    intro hcon
    have : (1 : ℝ) / (1 + Real.exp (-5)) = 1 / (1 + Real.exp 5) := by
      linarith [sub_eq_zero.mp hcon]
    linarith
  · simp [hp]

/-! ## Deterministic jagged contour sampling (entities/contour2d.py)

numpy's global RNG is modelled explicitly: the state is `(seed, pos)` and an
abstract stream `u : ℕ → ℕ → ℚ` gives the value of the `pos`-th scalar drawn
under a given seed.  `np.random.seed(s)` replaces the state by `(s, 0)`;
every scalar consumed advances `pos`.  `np.linalg.norm` is supplied as the
function parameter `sqrtq`. -/

/-- Global numpy RNG state: current seed and number of scalars consumed. -/
abbrev RandState := ℕ × ℕ

/-- `np.random.seed(s)`. -/
def npSeed (s : ℕ) : RandState := (s, 0)

/-- Draw `k` raw stream scalars, advancing the state. -/
def drawRaw (u : ℕ → ℕ → ℚ) (st : RandState) (k : ℕ) :
    List ℚ × RandState :=
  ((List.range k).map (fun j => u st.1 (st.2 + j)), (st.1, st.2 + k))

/-- `np.random.dirichlet(10 * np.ones(m))`: `m` seeded draws normalised to
sum to 1 (numpy's internal gamma sampling is folded into the stream `u`). -/
def dirichlet (u : ℕ → ℕ → ℚ) (st : RandState) (m : ℕ) :
    List ℚ × RandState :=
  let (vs, st') := drawRaw u st m
  (vs.map (fun v => v / vs.sum), st')

/-- `np.random.uniform(lo, hi, k)`. -/
def uniformDraw (u : ℕ → ℕ → ℚ) (st : RandState) (lo hi : ℚ) (k : ℕ) :
    List ℚ × RandState :=
  let (vs, st') := drawRaw u st k
  (vs.map (fun v => lo + (hi - lo) * v), st')

/-- `np.cumsum`. -/
def cumsumFrom (acc : ℚ) : List ℚ → List ℚ
  | [] => []
  | x :: r => (acc + x) :: cumsumFrom (acc + x) r

/-- The attributes of a `LineContour2D` read by `segments` and
`jagged_points` (`stop` models the source attribute named `end`, a reserved
word in Lean). -/
structure LineContour2D where
  start : V2
  stop : V2
  jaggedness : ℚ
  n_points : ℕ
  seed : ℕ
  deriving DecidableEq, Repr

/-- `LineContour2D.segments`: reseed, draw the Dirichlet spacings, prepend
the fixed 0 spacing, take cumulative parameters, and produce points plus the
constant unit normal rows.  `n_points = 0` makes `np.ones(n_points - 1)`
raise, which we surface as a `ValueError`. -/
def lineSegments (u : ℕ → ℕ → ℚ) (sqrtq : ℚ → ℚ) (_st : RandState)
    (c : LineContour2D) :
    Except PyErr ((List V2 × List V2) × RandState) :=
  let st1 := npSeed c.seed -- np.random.seed(self.get("seed"))
  if c.n_points = 0 then
    .error (.valueError "negative dimensions are not allowed")
  else
    let (sp, st2) := dirichlet u st1 (c.n_points - 1)
    let spaces := 0 :: sp -- np.hstack([0, spaces])
    let cs := cumsumFrom 0 spaces
    let d : V2 := vsub2 c.stop c.start
    let points := cs.map
      (fun t => (c.start.1 + t * d.1, c.start.2 + t * d.2))
    let nrm := sqrtq (d.1 ^ 2 + d.2 ^ 2) -- np.linalg.norm(end - start)
    let normal : V2 := (-d.2 / nrm, d.1 / nrm)
    let normals := points.map (fun _ => normal)
      -- np.linspace(normal, normal, n_points): constant rows
    .ok ((points, normals), st2)

/-- `Contour2D.jagged_points` for a `LineContour2D`: reseed, get segments
(which itself reseeds with the same seed), draw the uniform normal offsets,
zero the first and last offset, and displace each point along its normal. -/
def jagged_points (u : ℕ → ℕ → ℚ) (sqrtq : ℚ → ℚ) (_st : RandState)
    (c : LineContour2D) : Except PyErr (List V2 × RandState) :=
  let st1 := npSeed c.seed -- np.random.seed(self.get("seed"))
  match lineSegments u sqrtq st1 c with
  | .error e => .error e
  | .ok ((points, normals), st2) =>
    let (offs0, st3) :=
      uniformDraw u st2 (-c.jaggedness) c.jaggedness points.length
    let offs := (offs0.set 0 0).set (points.length - 1) 0
      -- offsets[0] = [0]; offsets[-1] = [0]
    .ok (List.zipWith
      (fun p (q : ℚ × V2) => (p.1 + q.1 * q.2.1, p.2 + q.1 * q.2.2))
      points (offs.zip normals), st3)

/-! ## Eager child attachment (entities/entity.py Entity.add_components)

The parent pointers and child lists that `add_components` mutates live in
shared mutable objects, so they are modelled as a heap of nodes addressed by
position. -/

/-- The entity fields `add_components` mutates. -/
structure EntNode where
  parent : Option ℕ
  components : List ℕ
  deriving DecidableEq, Repr

abbrev Heap := List EntNode

/-- An argument to `add_components`: an entity, a (possibly nested) sequence
of arguments, or a non-entity non-iterable value such as an int (the payload
records which int). -/
inductive Arg where
  | node (id : ℕ)
  | seq (args : List Arg)
  | bad (v : ℤ)

def modifyNode : Heap → ℕ → (EntNode → EntNode) → Heap
  | [], _, _ => []
  | x :: r, 0, f => f x :: r
  | x :: r, n + 1, f => x :: modifyNode r n f

/-- `self.attributes["components"].append(arg); arg.attributes["parent"] =
self`. -/
def attach (h : Heap) (self child : ℕ) : Heap :=
  modifyNode
    (modifyNode h self (fun n => { n with components := n.components ++ [child] }))
    child (fun n => { n with parent := some self })

/-- `Entity.add_components(*args)`: iterate the arguments, recursively
flattening sequences; attach entities; raise `ValueError` at the first
non-entity.  The returned heap records every mutation performed before the
error (Python does not roll them back). -/
def add_components : Heap → ℕ → List Arg → Heap × Option PyErr
  | h, _, [] => (h, none)
  | h, self, .seq l :: rest =>
    match add_components h self l with
    | (h', none) => add_components h' self rest
    | (h', some e) => (h', some e)
  | h, self, .node i :: rest => add_components (attach h self i) self rest
  | h, _, .bad _ :: _ => (h, some (.valueError "is not an Entity."))
  termination_by _ _ args => sizeOf args

/-- `true` iff no argument (however deeply nested) is a non-entity. -/
def noBad : List Arg → Bool
  | [] => true
  | .node _ :: rest => noBad rest
  | .seq l :: rest => noBad l && noBad rest
  | .bad _ :: _ => false
  termination_by args => sizeOf args

/-- On an all-entity argument list `add_components` succeeds, and appending
further arguments continues from the mutated heap.  (Proved by strong
induction on the size of the nested argument list.) -/
theorem add_components_noBad_aux :
    ∀ (n : ℕ) (args : List Arg), sizeOf args ≤ n →
      ∀ (h : Heap) (self : ℕ) (tail : List Arg), noBad args = true →
        add_components h self (args ++ tail) =
          add_components (add_components h self args).1 self tail ∧
        (add_components h self args).2 = none := by
  intro n
  induction n with
  | zero =>
    intro args hsz
    exfalso
    cases args <;> simp at hsz
  | succ n ih =>
    intro args hsz h self tail hnb
    match args with
    | [] => simp [add_components]
    | .node i :: rest =>
      have hr : sizeOf rest ≤ n := by simp at hsz; omega
      have hnb' : noBad rest = true := by rw [noBad] at hnb; exact hnb
      have hres := ih rest hr (attach h self i) self tail hnb'
      constructor
      · show add_components h self (.node i :: (rest ++ tail)) = _
        simp only [add_components]
        exact hres.1
      · show (add_components h self (.node i :: rest)).2 = none
        simp only [add_components]
        exact hres.2
    | .seq l :: rest =>
      have hsl : sizeOf l ≤ n := by simp at hsz; omega
      have hsr : sizeOf rest ≤ n := by simp at hsz; omega
      rw [noBad, Bool.and_eq_true] at hnb
      obtain ⟨hl, hr⟩ := hnb
      rcases hres : add_components h self l with ⟨h', oe⟩
      have hoe : oe = none := by
        have h2 := (ih l hsl h self [] hl).2
        rw [hres] at h2; exact h2
      subst hoe
      have hrt := ih rest hsr h' self tail hr
      constructor
      · show add_components h self (.seq l :: (rest ++ tail)) = _
        simp only [add_components, hres]
        exact hrt.1
      · show (add_components h self (.seq l :: rest)).2 = none
        simp only [add_components, hres]
        exact hrt.2
    | .bad v :: rest => simp [noBad] at hnb

/-! ## Timeline/Replay Engine (scene.py)

Script instructions in the source are executable Python strings produced by
the authoring layer (animation.py); they are modelled as the tagged
mutations those strings perform (`""`, the ctor's default entry, is a
no-op).  Python dict keys may be strings or ints — this matters because
`Scene.reset` indexes the string-keyed entity dicts with ints. -/

abbrev PyKey := String ⊕ ℕ

/-- The entity state the modelled instructions mutate (`Entity.move`). -/
structure EntState where
  pos : Vec3
  deriving DecidableEq, Repr

/-- A Python dict of entities: association list in insertion order. -/
abbrev EntMap := List (PyKey × EntState)

def dictLookup (m : EntMap) (k : PyKey) : Option EntState :=
  (m.find? (fun p => decide (p.1 = k))).map Prod.snd

/-- Python dict item assignment: overwrite in place, or append a new key. -/
def dictSet : EntMap → PyKey → EntState → EntMap
  | [], k, v => [(k, v)]
  | (k', v') :: r, k, v =>
    if k' = k then (k, v) :: r else (k', v') :: dictSet r k v

/-- A scripted instruction, as emitted by animation.py:
`""` (no-op), `self.entities["a"].move(dpos=d)` and
`self.entities["a"].move(pos=p)`. -/
inductive Instr where
  | noop
  | moveBy (target : String) (d : Vec3)
  | moveTo (target : String) (p : Vec3)
  deriving DecidableEq, Repr

/-- Execute one instruction against the entity dict; an unknown alias
raises `KeyError`. -/
def execInstr (ents : EntMap) : Instr → Except PyErr EntMap
  | .noop => .ok ents
  | .moveBy a d =>
    match dictLookup ents (.inl a) with
    | none => .error (.keyError (.inl a))
    | some e => .ok (dictSet ents (.inl a) ⟨vadd e.pos d⟩)
  | .moveTo a p =>
    match dictLookup ents (.inl a) with
    | none => .error (.keyError (.inl a))
    | some _ => .ok (dictSet ents (.inl a) ⟨p⟩)

/-- The sparse script: frame number to ordered instruction list, in
insertion order. -/
abbrev Script := List (ℕ × List Instr)

def scriptGet (sc : Script) (f : ℕ) : Option (List Instr) :=
  ((sc.find? (fun p => decide (p.1 = f))).map Prod.snd)

/-- `Scene.add_instruction`: create the frame slot if absent, then append. -/
def scriptAdd : Script → ℕ → Instr → Script
  | [], f, i => [(f, [i])]
  | (f', l) :: r, f, i =>
    if f' = f then (f', l ++ [i]) :: r else (f', l) :: scriptAdd r f i

/-- The Scene state (width/height/resolution/background/origin are carried
but inert for the replay claims). -/
structure Scene where
  width : ℕ
  height : ℕ
  resolution : ℚ
  fps : ℚ
  entities : EntMap
  entities_init : EntMap
  background : Vec3
  origin : ℕ × ℕ
  script : Script
  current_frame : ℕ
  deriving DecidableEq, Repr

/-- A replay failure: either an exception propagated raw (e.g. the
`KeyError` escaping `Scene.reset`) or an instruction failure, which the
source surfaces together with the frame number, the elapsed time
`frame / fps` and the offending instruction before re-raising. -/
inductive ReplayErr where
  | raw (e : PyErr)
  | failAt (frame : ℕ) (time : ℚ) (instr : Instr) (e : PyErr)
  deriving DecidableEq, Repr

/-- The loop of `Scene.reset`: `for i in range(len(self.entities)):
self.entities[i] = deepcopy(self.entities_init[i])`.  Reading a missing int
key from `entities_init` raises `KeyError`; a successful read assigns the
int key into `entities`. -/
def resetLoop (init : EntMap) : ℕ → ℕ → EntMap → Except PyErr EntMap
  | _, 0, ents => .ok ents
  | i, k + 1, ents =>
    match dictLookup init (.inr i) with
    | none => .error (.keyError (.inr i))
    | some v => resetLoop init (i + 1) k (dictSet ents (.inr i) v)

/-- `Scene.reset`. -/
def reset (s : Scene) : Except PyErr Scene :=
  match resetLoop s.entities_init 0 s.entities.length s.entities with
  | .error e => .error e
  | .ok ents => .ok { s with entities := ents, current_frame := 0 }

/-- Execute the instruction list of one frame; a failure is wrapped with the
frame number, elapsed time and instruction, as printed and re-raised by
`Scene.set_frame_no`. -/
def runInstrs (fps : ℚ) (frame : ℕ) : EntMap → List Instr →
    Except ReplayErr EntMap
  | ents, [] => .ok ents
  | ents, ins :: rest =>
    match execInstr ents ins with
    | .error e => .error (.failAt frame (frame / fps) ins e)
    | .ok ents' => runInstrs fps frame ents' rest

/-- One iteration of the replay loop: frames absent from the script are
skipped. -/
def runFrame (fps : ℚ) (sc : Script) (cur : ℕ) (ents : EntMap) :
    Except ReplayErr EntMap :=
  match scriptGet sc cur with
  | none => .ok ents
  | some l => runInstrs fps cur ents l

/-- Replay the `count` frames starting at `cur`
(`for i in range(current_frame, frame_no)`). -/
def runRange (fps : ℚ) (sc : Script) : EntMap → ℕ → ℕ →
    Except ReplayErr EntMap
  | ents, _, 0 => .ok ents
  | ents, cur, count + 1 =>
    match runFrame fps sc cur ents with
    | .error e => .error e
    | .ok ents' => runRange fps sc ents' (cur + 1) count

/-- `Scene.set_frame_no` (the `display` branch is outside the model): reset
first when seeking backward, then replay `[current_frame, frame_no)` and
advance the cursor. -/
def set_frame_no (s : Scene) (frame_no : ℕ) : Except ReplayErr Scene :=
  match (if frame_no < s.current_frame then reset s else .ok s) with
  | .error e => .error (.raw e)
  | .ok s1 =>
    match runRange s1.fps s1.script s1.entities s1.current_frame
        (frame_no - s1.current_frame) with
    | .error e => .error e
    | .ok ents => .ok { s1 with entities := ents, current_frame := frame_no }

/-- `Scene.capture_frame` draws through the external rasteriser and does not
mutate the engine; the captured frame is modelled by the data that
determines it: the entity configuration at capture time. -/
def capture_frame (s : Scene) : EntMap := s.entities

/-- `max(self.script.keys())`; `ValueError` on an empty dict. -/
def maxKey : Script → Except PyErr ℕ
  | [] => .error (.valueError "max() arg is an empty sequence")
  | (k, _) :: r => .ok (r.foldl (fun acc p => max acc p.1) k)

/-- The collection loop of `Scene.get_frames`, with the number of remaining
frames explicit (`end_frame + 1 - start_frame` at the top call). -/
def getFramesLoop (s : Scene) (i : ℕ) : ℕ → Except ReplayErr (List EntMap)
  | 0 => .ok []
  | k + 1 =>
    match set_frame_no s i with
    | .error e => .error e
    | .ok s' =>
      match getFramesLoop s' (i + 1) k with
      | .error e => .error e
      | .ok rest => .ok (capture_frame s' :: rest)

/-- `Scene.get_frames(start_frame, end_frame)`; `end_frame = none` defaults
to the largest scripted frame.  On any replay failure the whole call aborts
and no frame list is produced. -/
def get_frames (s : Scene) (start_frame : ℕ) (end_frame : Option ℕ) :
    Except ReplayErr (List EntMap) :=
  match end_frame with
  | some e => getFramesLoop s start_frame (e + 1 - start_frame)
  | none =>
    match maxKey s.script with
    | .error e => .error (.raw e)
    | .ok e => getFramesLoop s start_frame (e + 1 - start_frame)

theorem set_frame_no_forward (s : Scene) (t : ℕ) (h : ¬ t < s.current_frame) :
    set_frame_no s t =
      match runRange s.fps s.script s.entities s.current_frame
          (t - s.current_frame) with
      | .error e => .error e
      | .ok m => .ok { s with entities := m, current_frame := t } := by
  unfold set_frame_no
  rw [if_neg h]

/-- Any error produced while running one frame's instruction list carries
that frame number, the elapsed time `frame / fps` and an instruction from
the list. -/
theorem runInstrs_error_shape (fps : ℚ) (fr : ℕ) :
    ∀ (l : List Instr) (ents : EntMap) (er : ReplayErr),
      runInstrs fps fr ents l = .error er →
      ∃ ins e, er = .failAt fr (fr / fps) ins e ∧ ins ∈ l := by
  intro l
  induction l with
  | nil => intro ents er h; simp [runInstrs] at h
  | cons ins rest ih =>
    intro ents er h
    rw [runInstrs] at h
    cases hx : execInstr ents ins with
    | error e =>
      rw [hx] at h
      simp only [Except.error.injEq] at h
      exact ⟨ins, e, h.symm, List.mem_cons_self ins rest⟩
    | ok ents' =>
      rw [hx] at h
      obtain ⟨ins', e', her, hm⟩ := ih ents' er h
      exact ⟨ins', e', her, List.mem_cons_of_mem _ hm⟩

/-- Replaying `a + b` frames is replaying `a` frames and then `b` more. -/
theorem runRange_add (fps : ℚ) (sc : Script) :
    ∀ (a : ℕ) (b : ℕ) (ents : EntMap) (cur : ℕ),
      runRange fps sc ents cur (a + b) =
        match runRange fps sc ents cur a with
        | .error e => .error e
        | .ok m => runRange fps sc m (cur + a) b := by
  intro a
  induction a with
  | zero => intro b ents cur; simp [runRange]
  | succ a ih =>
    intro b ents cur
    have hs : a + 1 + b = (a + b) + 1 := by omega
    rw [hs]
    cases hf : runFrame fps sc cur ents with
    | error e => simp only [runRange, hf]
    | ok ents' =>
      simp only [runRange, hf]
      rw [ih b ents' (cur + 1)]
      cases runRange fps sc ents' (cur + 1) a with
      | error e => rfl
      | ok m => rw [show cur + 1 + a = cur + (a + 1) by omega]

theorem set_frame_no_forward_ok (s : Scene) (t : ℕ)
    (h : ¬ t < s.current_frame) (m : EntMap)
    (hm : runRange s.fps s.script s.entities s.current_frame
      (t - s.current_frame) = .ok m) :
    set_frame_no s t = .ok { s with entities := m, current_frame := t } := by
  rw [set_frame_no_forward s t h, hm]

theorem set_frame_no_forward_err (s : Scene) (t : ℕ)
    (h : ¬ t < s.current_frame) (e : ReplayErr)
    (he : runRange s.fps s.script s.entities s.current_frame
      (t - s.current_frame) = .error e) :
    set_frame_no s t = .error e := by
  rw [set_frame_no_forward s t h, he]

theorem getFramesLoop_succ_err (s : Scene) (i k : ℕ) (e : ReplayErr)
    (h : set_frame_no s i = .error e) :
    getFramesLoop s i (k + 1) = .error e := by
  rw [getFramesLoop, h]

theorem getFramesLoop_succ_ok_err (s s' : Scene) (i k : ℕ) (e : ReplayErr)
    (h : set_frame_no s i = .ok s')
    (h2 : getFramesLoop s' (i + 1) k = .error e) :
    getFramesLoop s i (k + 1) = .error e := by
  rw [getFramesLoop, h]
  show (match getFramesLoop s' (i + 1) k with
    | Except.error e => Except.error e
    | Except.ok rest => Except.ok (capture_frame s' :: rest)) =
      Except.error e
  rw [h2]

/-- The frame-collection loop aborts with the frame-5 failure: starting
from any scene already replayed consistently to frame `i ≤ 5`, the loop
reaches frame 6, whose seek replays frame 5 and fails. -/
theorem getFramesLoop_to_error (fps : ℚ) (sc : Script) (m5 : EntMap)
    (f5 : ReplayErr) (hfail : runFrame fps sc 5 m5 = .error f5) :
    ∀ (d i : ℕ) (t : Scene), t.fps = fps → t.script = sc →
      d = 5 - i → i ≤ 5 → t.current_frame ≤ i →
      runRange fps sc t.entities t.current_frame (5 - t.current_frame) =
        .ok m5 →
      getFramesLoop t i (11 - i) = .error f5 := by
  intro d
  induction d with
  | zero =>
    intro i t hf hs hd hi hc hrun
    have hi5 : i = 5 := by omega
    subst hi5
    have hset := set_frame_no_forward_ok t 5 (by omega) m5
      (by rw [hf, hs]; exact hrun)
    have hset6 : set_frame_no { t with entities := m5, current_frame := 5 } 6
        = .error f5 := by
      apply set_frame_no_forward_err _ 6 (by simp)
      show runRange t.fps t.script m5 5 (6 - 5) = .error f5
      rw [hf, hs, show (6 - 5 : ℕ) = 0 + 1 from rfl, runRange, hfail]
    rw [show (11 - 5 : ℕ) = 5 + 1 from rfl]
    apply getFramesLoop_succ_ok_err _ _ _ _ _ hset
    rw [show (5 : ℕ) = 4 + 1 from rfl]
    exact getFramesLoop_succ_err _ _ _ _ hset6
  | succ d ih =>
    intro i t hf hs hd hi hc hrun
    have hilt : i < 5 := by omega
    rw [show 5 - t.current_frame = (i - t.current_frame) + (5 - i) by omega,
      runRange_add] at hrun
    cases hr1 : runRange fps sc t.entities t.current_frame
        (i - t.current_frame) with
    | error e => rw [hr1] at hrun; exact absurd hrun (by simp)
    | ok mi =>
      rw [hr1] at hrun
      rw [show t.current_frame + (i - t.current_frame) = i by omega] at hrun
      have hset := set_frame_no_forward_ok t i (by omega) mi
        (by rw [hf, hs]; exact hr1)
      have hrec := ih (i + 1) { t with entities := mi, current_frame := i }
        hf hs (by omega) (by omega) (by simp) hrun
      rw [show 11 - i = (10 - i) + 1 by omega]
      apply getFramesLoop_succ_ok_err _ _ _ _ _ hset
      rw [show 10 - i = 11 - (i + 1) by omega]
      exact hrec

/-! ## Scene construction and the shared default entities dict (scene.py)

`Scene.__init__` declares the mutable default argument `entities={}`: one
dict object, allocated when the class body is executed, reused by every
construction that omits `entities`; and `self.entities = entities` aliases
the passed dict.  Dict objects therefore live in a small heap (`World`);
cell 0 is the default-argument dict. -/

abbrev World := List EntMap

/-- The world right after `class Scene` is defined: the default-argument
dict exists and is empty. -/
def world0 : World := [[]]

/-- The scene fields the construction claims observe.  `entRef` is the heap
cell `self.entities` references; `entities_init` is the unaliased deepcopy
snapshot. -/
structure SceneObj where
  entRef : ℕ
  entities_init : EntMap
  script : Script
  current_frame : ℕ
  fps : ℚ
  deriving DecidableEq, Repr

def worldGet (w : World) (r : ℕ) : EntMap := w.getD r []

def worldSet (w : World) (r : ℕ) (m : EntMap) : World := w.set r m

/-- `Scene.__init__`, restricted to the modelled fields: `none` models a
call omitting `entities` (it references the shared default dict, cell 0);
`some m` models passing a fresh dict with contents `m` (allocated at the end
of the heap).  `entities_init = deepcopy(entities)` and the constructor ends
with `self.add_instruction(0, "")`. -/
def mkScene (w : World) (entsArg : Option EntMap) (fps : ℚ) :
    SceneObj × World :=
  match entsArg with
  | none =>
    ({ entRef := 0, entities_init := worldGet w 0,
       script := scriptAdd [] 0 .noop, current_frame := 0, fps := fps }, w)
  | some m =>
    ({ entRef := w.length, entities_init := m,
       script := scriptAdd [] 0 .noop, current_frame := 0, fps := fps },
     w ++ [m])

/-- `self.entities`, dereferenced in a given world. -/
def sceneEntities (w : World) (s : SceneObj) : EntMap := worldGet w s.entRef

/-- A dict freshly allocated at the end of the heap dereferences to its
contents. -/
theorem worldGet_append_self (w : World) (m : EntMap) :
    worldGet (w ++ [m]) w.length = m := by
  induction w with
  | nil => rfl
  | cons a t ih =>
    show worldGet (a :: (t ++ [m])) (t.length + 1) = m
    simp only [worldGet, List.getD_cons_succ]
    exact ih

/-- Python `dict.update`. -/
def dictUpdate (m new : EntMap) : EntMap :=
  new.foldl (fun acc p => dictSet acc p.1 p.2) m

/-- `Scene.add_entities(new)`: updates the referenced dict in place and the
scene-local `entities_init` snapshot. -/
def add_entities (w : World) (s : SceneObj) (new : EntMap) :
    SceneObj × World :=
  ({ s with entities_init := dictUpdate s.entities_init new },
   worldSet w s.entRef (dictUpdate (worldGet w s.entRef) new))

/-! ## Minimum-zone flatness (flatness_visualizer_2d.calc_flatness)

Point distances require a square root, supplied as the function parameter
`sqrtq`; the unbounded rolling `while` loop is modelled with explicit fuel
(`PyErr.outOfFuel` marks exhaustion and is not a Python behaviour). -/

/-- `np.argmin` over a list (first index of the minimum; 0 for `[]`). -/
def argminIdx (l : List ℚ) : ℕ :=
  match l with
  | [] => 0
  | x :: r =>
    (r.foldl (fun (acc : ℚ × ℕ × ℕ) v =>
      if v < acc.1 then (v, acc.2.2, acc.2.2 + 1)
      else (acc.1, acc.2.1, acc.2.2 + 1)) (x, 0, 1)).2.1

/-- `np.argmax` over a list (first index of the maximum; 0 for `[]`). -/
def argmaxIdx (l : List ℚ) : ℕ :=
  match l with
  | [] => 0
  | x :: r =>
    (r.foldl (fun (acc : ℚ × ℕ × ℕ) v =>
      if v > acc.1 then (v, acc.2.2, acc.2.2 + 1)
      else (acc.1, acc.2.1, acc.2.2 + 1)) (x, 0, 1)).2.1

/-- `np.max` paired with `np.argmax` (`none` for an empty list). -/
def maxWithIdx (l : List ℚ) : Option (ℚ × ℕ) :=
  match l with
  | [] => none
  | x :: r =>
    let acc := r.foldl (fun (acc : ℚ × ℕ × ℕ) v =>
      if v > acc.1 then (v, acc.2.2, acc.2.2 + 1)
      else (acc.1, acc.2.1, acc.2.2 + 1)) (x, 0, 1)
    some (acc.1, acc.2.1)

/-- Accumulator of the inner `for` loop of `calc_flatness`: the direction
and dot-product tables for both anchors, plus the current values of the
Python locals `p0_dir`/`p1_dir` (`none` while still unassigned). -/
structure ScanAcc where
  p0_dirs : List V2
  p0_dots : List ℚ
  p1_dirs : List V2
  p1_dots : List ℚ
  p0_dir : Option V2
  p1_dir : Option V2
  deriving DecidableEq, Repr

/-- One iteration of the inner `for` loop.  When the scanned point equals an
anchor, the direction table records `[0, 0]` but the dot product reads the
*stale* local `p0_dir`/`p1_dir`, which raises `UnboundLocalError` if that
local has never been assigned in the function. -/
def scanPoint (sqrtq : ℚ → ℚ) (p0 p1 p0s p1s : V2) (acc : ScanAcc)
    (pt : V2) : Except PyErr ScanAcc :=
  let step0 : List V2 × Option V2 :=
    if pt = p0 then
      (acc.p0_dirs ++ [(0, 0)], acc.p0_dir)
    else
      let dist := sqrtq ((pt.1 - p0.1) ^ 2 + (pt.2 - p0.2) ^ 2)
      let dir : V2 := ((pt.1 - p0.1) / dist, (pt.2 - p0.2) / dist)
      (acc.p0_dirs ++ [dir], some dir)
  match step0.2 with
  | none => .error (.unboundLocal "p0_dir")
  | some d0 =>
    let step1 : List V2 × Option V2 :=
      if pt = p1 then
        (acc.p1_dirs ++ [(0, 0)], acc.p1_dir)
      else
        let dist := sqrtq ((pt.1 - p1.1) ^ 2 + (pt.2 - p1.2) ^ 2)
        let dir : V2 := ((pt.1 - p1.1) / dist, (pt.2 - p1.2) / dist)
        (acc.p1_dirs ++ [dir], some dir)
    match step1.2 with
    | none => .error (.unboundLocal "p1_dir")
    | some d1 =>
      .ok ⟨step0.1, acc.p0_dots ++ [dot2 p0s d0],
           step1.1, acc.p1_dots ++ [dot2 p1s d1],
           some d0, some d1⟩

/-- The full inner `for` loop over all points. -/
def scanPoints (sqrtq : ℚ → ℚ) (p0 p1 p0s p1s : V2) (d0 d1 : Option V2)
    (pts : List V2) : Except PyErr ScanAcc :=
  pts.foldl
    (fun r pt =>
      match r with
      | .error e => .error e
      | .ok acc => scanPoint sqrtq p0 p1 p0s p1s acc pt)
    (.ok ⟨[], [], [], [], d0, d1⟩)

/-- The loop state of the rolling search: both anchors, their slopes, the
stale direction locals, and the recorded per-step separations. -/
structure FlatState where
  p0 : V2
  p1 : V2
  p0_slope : V2
  p1_slope : V2
  p0_dir : Option V2
  p1_dir : Option V2
  steps : List ℚ
  deriving DecidableEq, Repr

/-- One iteration of the `while` loop body: scan, pick the anchor with the
larger maximal dot product (ties advance `p0`), advance it and keep the
slopes antiparallel, then record the separation `|(p1-p0)·n|`. -/
def flatStep (sqrtq : ℚ → ℚ) (pts : List V2) (st : FlatState) :
    Except PyErr FlatState :=
  match scanPoints sqrtq st.p0 st.p1 st.p0_slope st.p1_slope
      st.p0_dir st.p1_dir pts with
  | .error e => .error e
  | .ok acc =>
    match maxWithIdx acc.p0_dots, maxWithIdx acc.p1_dots with
    | some (m0, i0), some (m1, i1) =>
      let stb := { st with p0_dir := acc.p0_dir, p1_dir := acc.p1_dir }
      let st' :=
        if m0 ≥ m1 then
          let s0 := acc.p0_dirs.getD i0 (0, 0)
          { stb with p0 := pts.getD i0 (0, 0), p0_slope := s0,
                     p1_slope := (-s0.1, -s0.2) }
        else
          let s1 := acc.p1_dirs.getD i1 (0, 0)
          { stb with p1 := pts.getD i1 (0, 0), p1_slope := s1,
                     p0_slope := (-s1.1, -s1.2) }
      let p01 := vsub2 st'.p1 st'.p0
      let fn : V2 := (-st'.p0_slope.2, st'.p0_slope.1)
      .ok { st' with steps := st'.steps ++ [|dot2 p01 fn|] }
    | _, _ => .error (.valueError "max() arg is an empty sequence")

/-- The rolling `while` loop: stop when an anchor has rolled onto the other
anchor's original extreme point. -/
def flatLoop (sqrtq : ℚ → ℚ) (pts : List V2) (pn0 pn1 : V2) :
    ℕ → FlatState → Except PyErr (List ℚ)
  | 0, _ => .error .outOfFuel
  | fuel + 1, st =>
    if st.p0 = pn1 ∨ st.p1 = pn0 then .ok st.steps
    else
      match flatStep sqrtq pts st with
      | .error e => .error e
      | .ok st' => flatLoop sqrtq pts pn0 pn1 fuel st'

/-- `calc_flatness(points)` (the `data=False` return): extreme-y anchors,
horizontal initial slopes, rolling search, minimum recorded separation. -/
def calc_flatness (sqrtq : ℚ → ℚ) (fuel : ℕ) (points : List V2) :
    Except PyErr ℚ :=
  if points.isEmpty then
    .error (.valueError "attempt to get argmin of an empty sequence")
  else
    let n0 := argminIdx (points.map Prod.snd)
    let n1 := argmaxIdx (points.map Prod.snd)
    let st : FlatState :=
      ⟨points.getD n0 (0, 0), points.getD n1 (0, 0),
       (1, 0), (-1, 0), none, none, []⟩
    match flatLoop sqrtq points (points.getD n0 (0, 0))
        (points.getD n1 (0, 0)) fuel st with
    | .error e => .error e
    | .ok steps =>
      match steps with
      | [] => .error (.valueError
          "zero-size array to reduction operation minimum")
      | x :: r => .ok (r.foldl min x)

end Noct

/-- Claim C3 (code bug): on the axis-aligned rectangle
`[[0,0],[10,0],[10,1],[0,1]]` the flatness computation does not return 1 —
it crashes.  The bottom extreme anchor is `points[0] = (0,0)`, so the very
first scanned point equals `p0` and the dot-product append reads the local
`p0_dir` before any assignment, raising `UnboundLocalError` — for any
square-root routine and any loop allowance. -/
theorem c3_flatness_rect_unbound_local (sqrtq : ℚ → ℚ) (fuel : ℕ)
    (hf : 1 ≤ fuel) :
    Noct.calc_flatness sqrtq fuel [(0, 0), (10, 0), (10, 1), (0, 1)] =
      .error (.unboundLocal "p0_dir") := by
  obtain ⟨k, rfl⟩ : ∃ k, fuel = k + 1 := ⟨fuel - 1, by omega⟩
  rfl

/-- Witness for C3 with the trivial square-root stub and fuel 1. -/
theorem c3_flatness_rect_unbound_local_witness :
    Noct.calc_flatness (fun _ => 0) 1 [(0, 0), (10, 0), (10, 1), (0, 1)] =
      .error (.unboundLocal "p0_dir") :=
  c3_flatness_rect_unbound_local (fun _ => 0) 1 le_rfl

/-- Claim C10 (code bug): on the general-position point set
`[(0,0),(1,2),(2,1)]` (pairwise distinct, non-collinear — the crash occurs
before any dot product is computed, so no tie can arise) the rolling loop
does not terminate by an anchor reaching the other anchor's original
extreme point: the first scanned point equals the lower anchor
`points[0] = (0,0)` and the loop body raises `UnboundLocalError` on its
very first step, for any square-root routine and any loop allowance. -/
theorem c10_flatness_loop_crashes_first_step (sqrtq : ℚ → ℚ) (fuel : ℕ)
    (hf : 1 ≤ fuel) :
    Noct.calc_flatness sqrtq fuel [(0, 0), (1, 2), (2, 1)] =
      .error (.unboundLocal "p0_dir") := by
  obtain ⟨k, rfl⟩ : ∃ k, fuel = k + 1 := ⟨fuel - 1, by omega⟩
  rfl

/-- Witness for C10 with the trivial square-root stub and fuel 1. -/
theorem c10_flatness_loop_crashes_first_step_witness :
    Noct.calc_flatness (fun _ => 0) 1 [(0, 0), (1, 2), (2, 1)] =
      .error (.unboundLocal "p0_dir") :=
  c10_flatness_loop_crashes_first_step (fun _ => 0) 1 le_rfl

/-- Claim C6 counterexample: `add_components(e1, 42)` on a fresh pair of
entities raises the `ValueError`, but the entity argument preceding the bad
one has already been attached — the target's child list and `e1`'s parent
pointer are mutated before the rejection, so the call is not atomic. -/
theorem c6_mutated_before_error_counterexample :
    Noct.add_components [⟨none, []⟩, ⟨none, []⟩] 0
        [Noct.Arg.node 1, Noct.Arg.bad 42] =
      ([⟨none, [1]⟩, ⟨some 0, []⟩],
        some (.valueError "is not an Entity.")) ∧
    ([⟨none, [1]⟩, ⟨some 0, []⟩] : Noct.Heap) ≠ [⟨none, []⟩, ⟨none, []⟩] := by
  constructor
  · simp [Noct.add_components, Noct.attach, Noct.modifyNode]
  · decide

/-- Claim C6 (corrected): when some argument (possibly nested inside a
sequence) is not a node, `add_components` does raise at attach time, but it
is not atomic: every argument preceding the first non-node in flattening
order has already been attached, and exactly those mutations persist in the
heap; the offending and subsequent arguments are not attached. -/
theorem c6_nonatomic_eager_rejection (h : Noct.Heap) (self : ℕ)
    (good : List Noct.Arg) (v : ℤ) (rest : List Noct.Arg)
    (hg : Noct.noBad good = true) :
    Noct.add_components h self (good ++ Noct.Arg.bad v :: rest) =
      ((Noct.add_components h self good).1,
        some (.valueError "is not an Entity.")) := by
  obtain ⟨happ, -⟩ := Noct.add_components_noBad_aux (sizeOf good) good
    le_rfl h self (Noct.Arg.bad v :: rest) hg
  rw [happ]
  simp only [Noct.add_components]

/-- Witness for C6: one good entity argument followed by the int 42. -/
theorem c6_nonatomic_eager_rejection_witness :
    Noct.add_components [⟨none, []⟩, ⟨none, []⟩] 0
        ([Noct.Arg.node 1] ++ Noct.Arg.bad 42 :: []) =
      ((Noct.add_components [⟨none, []⟩, ⟨none, []⟩] 0 [Noct.Arg.node 1]).1,
        some (.valueError "is not an Entity.")) :=
  c6_nonatomic_eager_rejection [⟨none, []⟩, ⟨none, []⟩] 0
    [Noct.Arg.node 1] 42 [] (by simp [Noct.noBad])

/-- Claim C9 (confirmed): jagged sampling is a function of the contour's
attributes and stored seed alone — the incoming global RNG state is
irrelevant, because both `jagged_points` and `segments` reseed with the
stored seed before drawing.  Hence evaluating twice with the same seed (in
particular, immediately after a first evaluation, from whatever state that
evaluation left the global RNG in) reproduces a bit-for-bit identical point
sequence (or the identical error). -/
theorem c9_jagged_points_deterministic (u : ℕ → ℕ → ℚ) (sqrtq : ℚ → ℚ)
    (c : Noct.LineContour2D) (st st' : Noct.RandState) :
    Except.map Prod.fst (Noct.jagged_points u sqrtq st c) =
      Except.map Prod.fst (Noct.jagged_points u sqrtq st' c) := rfl

/-- Claim C8 counterexample: a Scene constructed with all-default arguments
is not empty — its script already holds the constructor's `""` instruction
at frame 0 — and after an earlier default-constructed engine was populated
via `add_entities`, a freshly default-constructed engine starts with that
engine's entities (the shared mutable default dict), not with none. -/
theorem c8_not_created_empty_counterexample :
    (Noct.mkScene Noct.world0 none 30).1.script ≠ [] ∧
    Noct.sceneEntities
        (Noct.add_entities Noct.world0 (Noct.mkScene Noct.world0 none 30).1
          [(Sum.inl "e", ⟨(0, 0, 0)⟩)]).2
        (Noct.mkScene
          (Noct.add_entities Noct.world0 (Noct.mkScene Noct.world0 none 30).1
            [(Sum.inl "e", ⟨(0, 0, 0)⟩)]).2 none 30).1 =
      [(Sum.inl "e", ⟨(0, 0, 0)⟩)] ∧
    ([(Sum.inl "e", (⟨(0, 0, 0)⟩ : Noct.EntState))] : Noct.EntMap) ≠ [] := by
  refine ⟨by decide, by decide, by decide⟩

/-- Claim C8 (corrected): a newly constructed engine's script holds exactly
the one no-op instruction at frame 0; its entity dict is the `entities`
argument itself — empty only when a fresh empty dict is passed explicitly.
With default arguments it references the one shared default dict, so it
reflects every entity ever added to any default-constructed engine. -/
theorem c8_ctor_semantics (w : Noct.World) (fps : ℚ) (m new : Noct.EntMap)
    (hw : w ≠ []) :
    (Noct.mkScene w none fps).1.script = [(0, [Noct.Instr.noop])] ∧
    Noct.sceneEntities (Noct.mkScene w none fps).2
      (Noct.mkScene w none fps).1 = Noct.worldGet w 0 ∧
    Noct.sceneEntities (Noct.mkScene w (some m) fps).2
      (Noct.mkScene w (some m) fps).1 = m ∧
    Noct.sceneEntities
        (Noct.add_entities w (Noct.mkScene w none fps).1 new).2
        (Noct.mkScene
          (Noct.add_entities w (Noct.mkScene w none fps).1 new).2
          none fps).1
      = Noct.dictUpdate (Noct.worldGet w 0) new := by
  refine ⟨rfl, rfl, ?_, ?_⟩
  · exact Noct.worldGet_append_self w m
  · show Noct.worldGet
        (Noct.worldSet w 0 (Noct.dictUpdate (Noct.worldGet w 0) new)) 0 = _
    cases w with
    | nil => exact absurd rfl hw
    | cons a t => simp [Noct.worldGet, Noct.worldSet]

/-- Witness for C8 (corrected) at the initial world, fps 30, a fresh empty
explicit dict, and one added entity. -/
theorem c8_ctor_semantics_witness :
    (Noct.mkScene Noct.world0 none 30).1.script =
      [(0, [Noct.Instr.noop])] ∧
    Noct.sceneEntities (Noct.mkScene Noct.world0 none 30).2
      (Noct.mkScene Noct.world0 none 30).1 = Noct.worldGet Noct.world0 0 ∧
    Noct.sceneEntities (Noct.mkScene Noct.world0 (some []) 30).2
      (Noct.mkScene Noct.world0 (some []) 30).1 = [] ∧
    Noct.sceneEntities
        (Noct.add_entities Noct.world0
          (Noct.mkScene Noct.world0 none 30).1
          [(Sum.inl "e", ⟨(0, 0, 0)⟩)]).2
        (Noct.mkScene
          (Noct.add_entities Noct.world0
            (Noct.mkScene Noct.world0 none 30).1
            [(Sum.inl "e", ⟨(0, 0, 0)⟩)]).2 none 30).1
      = Noct.dictUpdate (Noct.worldGet Noct.world0 0)
          [(Sum.inl "e", ⟨(0, 0, 0)⟩)] :=
  c8_ctor_semantics Noct.world0 30 [] [(Sum.inl "e", ⟨(0, 0, 0)⟩)]
    (by decide)

/-- The concrete scene exercising claim C1: one registered entity aliased
`"e"` (string key) and a relative-delta instruction at frame 0, after the
constructor's default no-op entry. -/
def sceneC1 : Noct.Scene where
  width := 100
  height := 100
  resolution := 10
  fps := 30
  entities := [(Sum.inl "e", ⟨(0, 0, 0)⟩)]
  entities_init := [(Sum.inl "e", ⟨(0, 0, 0)⟩)]
  background := (0, 0, 0)
  origin := (50, 50)
  script := [(0, [Noct.Instr.noop, Noct.Instr.moveBy "e" (1, 0, 0)])]
  current_frame := 0

/-- Claim C1 (code bug): the direct forward seek to frame 1 succeeds and
applies the relative delta, but the backward seek `set_frame_no(0)` crashes
with `KeyError(0)` because `Scene.reset` indexes the string-keyed dicts
`entities`/`entities_init` with ints `0..len-1`.  The seek(N), seek(0),
seek(N) round trip therefore raises instead of reproducing the state, for
every scene with at least one registered entity. -/
theorem c1_backward_seek_keyerror :
    Noct.set_frame_no sceneC1 1 =
      .ok { sceneC1 with entities := [(Sum.inl "e", ⟨(1, 0, 0)⟩)],
                         current_frame := 1 } ∧
    Noct.set_frame_no { sceneC1 with
        entities := [(Sum.inl "e", ⟨(1, 0, 0)⟩)], current_frame := 1 } 0 =
      .error (.raw (.keyError (.inr 0))) := by
  constructor
  · rw [Noct.set_frame_no_forward _ 1 (by simp [sceneC1])]
    norm_num [sceneC1, Noct.runRange, Noct.runFrame, Noct.runInstrs,
      Noct.execInstr, Noct.scriptGet, Noct.dictLookup, Noct.dictSet,
      Noct.vadd, List.find?]
  · rfl

/-- Claim C5 (confirmed): for every scene positioned at frame 0 whose
replay reaches frame 5 successfully but fails while replaying frame 5's
instructions (e.g. one targets an unregistered alias), `get_frames(0, 10)`
aborts with that very failure — no frame list is produced — and the failure
carries the failing frame index 5, the elapsed time `5 / fps`, and the
offending instruction taken from the frame-5 instruction list. -/
theorem c5_get_frames_fail_fast (s s5 : Noct.Scene) (f5 : Noct.ReplayErr)
    (h0 : s.current_frame = 0)
    (h5 : Noct.set_frame_no s 5 = .ok s5)
    (h6 : Noct.set_frame_no s 6 = .error f5) :
    Noct.get_frames s 0 (some 10) = .error f5 ∧
    ∃ l ins e, Noct.scriptGet s.script 5 = some l ∧ ins ∈ l ∧
      f5 = .failAt 5 (5 / s.fps) ins e := by
  rw [Noct.set_frame_no_forward s 5 (by omega), h0, Nat.sub_zero] at h5
  rw [Noct.set_frame_no_forward s 6 (by omega), h0, Nat.sub_zero] at h6
  cases hm : Noct.runRange s.fps s.script s.entities 0 5 with
  | error e => rw [hm] at h5; exact absurd h5 (by simp)
  | ok m5 =>
    rw [hm] at h5
    cases hr6 : Noct.runRange s.fps s.script s.entities 0 6 with
    | ok m6 => rw [hr6] at h6; exact absurd h6 (by simp)
    | error e6 =>
      rw [hr6] at h6
      simp only [Except.error.injEq] at h6
      rw [h6] at hr6
      rw [show (6 : ℕ) = 5 + 1 from rfl,
        Noct.runRange_add s.fps s.script 5 1 s.entities 0, hm] at hr6
      have hr6' : Noct.runRange s.fps s.script m5 (0 + 5) 1 = .error f5 :=
        hr6
      rw [Nat.zero_add, show (1 : ℕ) = 0 + 1 from rfl, Noct.runRange] at hr6'
      cases hrf : Noct.runFrame s.fps s.script 5 m5 with
      | ok m' => rw [hrf] at hr6'; exact absurd hr6' (by simp [Noct.runRange])
      | error ef =>
        rw [hrf] at hr6'
        simp only [Except.error.injEq] at hr6'
        rw [hr6'] at hrf
        constructor
        · show Noct.getFramesLoop s 0 (10 + 1 - 0) = .error f5
          exact Noct.getFramesLoop_to_error s.fps s.script m5 f5 hrf 5 0 s
            rfl rfl (by omega) (by omega) (by omega)
            (by rw [h0, Nat.sub_zero]; exact hm)
        · rw [Noct.runFrame] at hrf
          cases hsg : Noct.scriptGet s.script 5 with
          | none => rw [hsg] at hrf; exact absurd hrf (by simp)
          | some l =>
            rw [hsg] at hrf
            obtain ⟨ins, e, hshape, hmem⟩ :=
              Noct.runInstrs_error_shape s.fps 5 l m5 f5 hrf
            exact ⟨l, ins, e, rfl, hmem, hshape⟩

/-- The concrete scene witnessing claim C5: frame 5 schedules a move of the
unregistered alias `"ghost"`. -/
def sceneC5 : Noct.Scene where
  width := 10
  height := 10
  resolution := 1
  fps := 30
  entities := [(Sum.inl "e", ⟨(0, 0, 0)⟩)]
  entities_init := [(Sum.inl "e", ⟨(0, 0, 0)⟩)]
  background := (0, 0, 0)
  origin := (5, 5)
  script := [(0, [Noct.Instr.noop]), (5, [Noct.Instr.moveBy "ghost" (1, 0, 0)])]
  current_frame := 0

/-- Witness for C5: on `sceneC5`, `get_frames(0, 10)` aborts with the
failure at frame 5, time 5/30, on the instruction moving `"ghost"`. -/
theorem c5_get_frames_fail_fast_witness :
    Noct.get_frames sceneC5 0 (some 10) =
      .error (.failAt 5 (5 / 30) (.moveBy "ghost" (1, 0, 0))
        (.keyError (.inl "ghost"))) ∧
    ∃ l ins e, Noct.scriptGet sceneC5.script 5 = some l ∧ ins ∈ l ∧
      (Noct.ReplayErr.failAt 5 (5 / 30) (.moveBy "ghost" (1, 0, 0))
        (.keyError (.inl "ghost"))) = .failAt 5 (5 / sceneC5.fps) ins e :=
  c5_get_frames_fail_fast sceneC5 { sceneC5 with current_frame := 5 } _
    rfl rfl
    (by rw [Noct.set_frame_no_forward _ 6 (by simp [sceneC5])]
        norm_num [sceneC5, Noct.runRange, Noct.runFrame, Noct.runInstrs,
          Noct.execInstr, Noct.scriptGet, Noct.dictLookup, List.find?]
        rfl)

/-- Claim C2 (confirmed): for every start value, end value, profile in
the five supported profiles and every `n > 1`, the list returned by
`funcs.span` has first element exactly equal to the start value and last
element exactly equal to the end value (float arithmetic modelled as exact
real arithmetic). -/
theorem c2_span_endpoints_exact (st en : ℝ) (p : Noct.Profile) (n : ℕ)
    (h : 1 < n) :
    (Noct.span st en n p).headD 0 = st ∧
    (Noct.span st en n p).getLastD 0 = en := by
  rw [Noct.span_closed st en p n h]
  constructor
  · rw [Noct.headD_range_map _ n (by omega)]
    simp
  · rw [Noct.getLastD_range_map _ n (by omega)]
    rw [mul_one_div_cancel (Noct.profileShape_diff_ne p n h)]
    ring

/-- Witness for C2 at start 0, end 1, `n = 2`, linear profile. -/
theorem c2_span_endpoints_exact_witness :
    (Noct.span 0 1 2 Noct.Profile.linear).headD 0 = 0 ∧
    (Noct.span 0 1 2 Noct.Profile.linear).getLastD 0 = 1 :=
  c2_span_endpoints_exact 0 1 Noct.Profile.linear 2 (by norm_num)

/-- Claim C4 counterexample: for the unit square centred at (-3, 0), the
reference point (0, 0) and direction (1, 0), every edge crossing the ray
line has a negative forward distance (no forward crossing exists at all),
yet `dist_to_poly` returns `-∞`, not the `+∞` required by the claim. -/
theorem c4_no_forward_crossing_counterexample :
    Noct.dist_to_poly (fun _ => 1)
        [(-7/2, -1/2), (-5/2, -1/2), (-5/2, 1/2), (-7/2, 1/2)]
        (0, 0) (1, 0) = Noct.QInf.ninf ∧
    (∀ d ∈ Noct.specCrossDists (1, 0)
        [(-7/2, -1/2), (-5/2, -1/2), (-5/2, 1/2), (-7/2, 1/2)]
        (0, 0), d < 0) ∧
    Noct.QInf.ninf ≠ Noct.QInf.pinf := by
  have hedges : Noct.polyEdges
      [(-7/2, -1/2), (-5/2, -1/2), (-5/2, 1/2), (-7/2, 1/2)] =
      [((-7/2, -1/2), (-5/2, -1/2)), ((-5/2, -1/2), (-5/2, 1/2)),
       ((-5/2, 1/2), (-7/2, 1/2)), ((-7/2, 1/2), (-7/2, -1/2))] := by
    norm_num [Noct.polyEdges, List.range_succ]
  refine ⟨?_, ?_, by simp⟩
  · unfold Noct.dist_to_poly
    rw [hedges]
    norm_num [Noct.distStep, Noct.dot2, Noct.vsub2]
  · unfold Noct.specCrossDists
    rw [hedges]
    norm_num [Noct.dot2, Noct.vsub2]
    rintro d (rfl | rfl) <;> norm_num

/-- Claim C4 (corrected): for every polygon, reference point and direction,
`dist_to_poly` returns the minimum non-negative forward distance among the
edges crossing the ray line, negated when some crossing has a negative
forward distance; it returns `+∞` when no edge crosses the ray line at all
and `-∞` when crossings exist but every one of them is backward. -/
theorem c4_dist_to_poly_contract (nf : Noct.V2 → ℚ) (vs : List Noct.V2)
    (pt dir : Noct.V2) :
    Noct.dist_to_poly nf vs pt dir =
      Noct.dist_to_poly_spec (dir.1 / nf dir, dir.2 / nf dir) vs pt := by
  have h := Noct.foldl_distStep_main (dir.1 / nf dir, dir.2 / nf dir) pt vs
  unfold Noct.dist_to_poly Noct.dist_to_poly_spec
  simp only [h]

/-- Claim C7 counterexample: a parentless Scene Node whose stored local
position is (1,2,3) has `gpos() = (1,2,3)`, not the zero vector, so the
claim that the global position accessor of a root returns zero regardless of
the stored local position is false. -/
theorem c7_root_gpos_not_zero :
    Noct.gpos ⟨(1, 2, 3), Noct.mid, []⟩ = (1, 2, 3) ∧
    Noct.gpos ⟨(1, 2, 3), Noct.mid, []⟩ ≠ ((0 : ℚ), (0 : ℚ), (0 : ℚ)) := by
  constructor
  · rfl
  · decide

/-- Claim C7 (corrected): for every Scene Node with no parent, regardless of
its stored local position and orientation, `gori()` returns the identity
matrix, while `gpos()` returns the stored local position itself (hence the
zero vector exactly when the stored local position is zero). -/
theorem c7_root_frame_globals (pos : Noct.Vec3) (ori : Noct.Mat3) :
    Noct.gpos ⟨pos, ori, []⟩ = pos ∧ Noct.gori ⟨pos, ori, []⟩ = Noct.mid := by
  exact ⟨rfl, rfl⟩
